import Mathlib

/-!
# Verification of the osmoscan transaction normalization pipeline

A shallow embedding of the core of the osmoscan repository (amount
normalization, transaction classification, ledger-client pagination and
CSV report export) together with proofs of the specification's claims.

JavaScript strings are modeled as Lean `String`s (lists of characters);
arbitrary-precision `BigInt` values are modeled as `Nat` (all values in
scope are non-negative).  Loosely structured ("duck-typed") message
records are modeled as structures with `Option` fields, an absent or
`null`/`undefined` field being `none`.
-/

namespace Osmo

/-- JavaScript `a || dflt` for a possibly-absent string `a`: `null`,
`undefined` and the empty string are falsy. -/
def jsOr (a : Option String) (dflt : String) : String :=
  match a with
  | some s => if s = "" then dflt else s
  | none => dflt

/-- The decimal digit characters, as produced by `BigInt.prototype.toString`. -/
def digitChar : Nat → Char
  | 0 => '0' | 1 => '1' | 2 => '2' | 3 => '3' | 4 => '4'
  | 5 => '5' | 6 => '6' | 7 => '7' | 8 => '8' | _ => '9'

/-- Numeric value of a decimal digit character. -/
def charVal (c : Char) : Nat := c.toNat - 48

/-- Digit characters of `n`, most significant first (fuel-based so that the
kernel can evaluate it; `fuel = n` always suffices). -/
def natCharsAux : Nat → Nat → List Char
  | 0, _ => []
  | fuel + 1, n => if n = 0 then [] else natCharsAux fuel (n / 10) ++ [digitChar (n % 10)]

/-- Models `BigInt.prototype.toString` (base 10) for a non-negative value. -/
def bigIntToString (n : Nat) : String :=
  if n = 0 then "0" else String.mk (natCharsAux n n)

/-- Numeric value of a list of decimal digit characters — the arithmetic
core of the `BigInt` string constructor; `jsBigInt` below models the
constructor itself, including its throw on other strings. -/
def parseDigits (l : List Char) : Nat :=
  l.foldl (fun acc c => 10 * acc + charVal c) 0

/-- Models the `BigInt(s)` string constructor: a string consisting solely
of decimal digits evaluates to its value (the empty string to 0); any
other string throws a `SyntaxError`, modeled as `none`.  (The
constructor also accepts signed, radix-prefixed and whitespace-padded
literals; no string this development reasons about has those forms.) -/
def jsBigInt (s : String) : Option Nat :=
  if s.data.all (fun c => c.isDigit) then some (parseDigits s.data) else none

/-- JavaScript `s.split('.')`. -/
def splitOnDot : List Char → List (List Char)
  | [] => [[]]
  | c :: rest =>
    if c = '.' then [] :: splitOnDot rest
    else
      match splitOnDot rest with
      | [] => [[c]]
      | h :: t => (c :: h) :: t

/-- JavaScript `s.padStart(n, '0')`. -/
def padStartZeros (l : List Char) (n : Nat) : List Char :=
  List.replicate (n - l.length) '0' ++ l

/-- JavaScript `s.padEnd(n, '0')`. -/
def padEndZeros (l : List Char) (n : Nat) : List Char :=
  l ++ List.replicate (n - l.length) '0'

/-- JavaScript `s.replace(/0+$/, '')`: strip all trailing `'0'` characters. -/
def dropTrailingZeros (l : List Char) : List Char :=
  (l.reverse.dropWhile (fun c => c == '0')).reverse

/-- ASCII uppercasing of one character (JavaScript `toUpperCase` on the
ASCII identifiers that occur in this code base). -/
def toUpperChar (c : Char) : Char :=
  if 'a' ≤ c ∧ c ≤ 'z' then Char.ofNat (c.toNat - 32) else c

/-- JavaScript `s.toUpperCase()`. -/
def toUpperStr (s : String) : String := String.mk (s.data.map toUpperChar)

/-- JavaScript `hay.includes(pat)` on lists of characters. -/
def listIncludes (hay pat : List Char) : Bool :=
  match hay with
  | [] => pat.isEmpty
  | _ :: t => pat.isPrefixOf hay || listIncludes t pat

/-- JavaScript `hay.includes(pat)`. -/
def strIncludes (hay pat : String) : Bool := listIncludes hay.data pat.data

/-- JavaScript `s.startsWith(pre)`. -/
def strStartsWith (s pre : String) : Bool := pre.data.isPrefixOf s.data

namespace AmountFormatter

/-- Source `AmountFormatter.toBaseUnits(value, decimals)` from
`src/lib/utils/amount-formatter.ts`: split the decimal string on `'.'`,
take the integer part (`'0'` when empty), pad/truncate the fractional part
to exactly `decimals` digits, and recombine as
`BigInt(int) * 10^decimals + BigInt(frac)`, returned via
`BigInt.prototype.toString`.  The source computes the power as the
floating-point expression `10 ** decimals`, which agrees with the exact
power for `decimals ≤ 22`.  On every input this development applies it
to — the decimal strings `fromBaseUnits` produces — the two split parts
are plain digit strings, the only strings on which the two `BigInt`
calls return normally (see `jsBigInt`). -/
def toBaseUnits (value : String) (decimals : Nat) : String :=
  let parts := splitOnDot value.data
  let integerPart := if (parts.getD 0 []).isEmpty then ['0'] else parts.getD 0 []
  let fractionalPart := (padEndZeros (parts.getD 1 []) decimals).take decimals
  bigIntToString (parseDigits integerPart * 10 ^ decimals + parseDigits fractionalPart)

/-- Source `AmountFormatter.fromBaseUnits(baseUnits, decimals)` from
`src/lib/utils/amount-formatter.ts`.  The source receives the base units
as a string and immediately converts with `BigInt(baseUnits)`; the `Nat`
argument here is that value.  Divide by `10^decimals`; when the remainder
is zero emit only the integer part, otherwise left-pad the remainder to
`decimals` digits, strip trailing zeros and join with `'.'`. -/
def fromBaseUnits (baseUnits : Nat) (decimals : Nat) : String :=
  let divisor := 10 ^ decimals
  let integerPart := baseUnits / divisor
  let fractionalPart := baseUnits % divisor
  if fractionalPart = 0 then
    bigIntToString integerPart
  else
    let fractionalStr := padStartZeros (bigIntToString fractionalPart).data decimals
    let trimmedFractional := dropTrailingZeros fractionalStr
    bigIntToString integerPart ++ "." ++ String.mk trimmedFractional

end AmountFormatter

end Osmo

/-! ## Basic facts about the digit-string primitives -/

namespace Osmo

theorem data_mk (l : List Char) : (String.mk l).data = l := rfl

theorem data_append (a b : String) : (a ++ b).data = a.data ++ b.data := by
  cases a; cases b; rfl

theorem charVal_digitChar : ∀ d, d < 10 → charVal (digitChar d) = d := by decide

theorem isDigit_digitChar : ∀ d, d < 10 → (digitChar d).isDigit = true := by decide

theorem foldl_parse (l : List Char) (a : Nat) :
    l.foldl (fun acc c => 10 * acc + charVal c) a = a * 10 ^ l.length + parseDigits l := by
  induction l generalizing a with
  | nil => simp [parseDigits]
  | cons c t ih =>
    show t.foldl _ (10 * a + charVal c) = _
    rw [ih (10 * a + charVal c)]
    have : parseDigits (c :: t) = (10 * 0 + charVal c) * 10 ^ t.length + parseDigits t := by
      show t.foldl _ (10 * 0 + charVal c) = _
      rw [ih (10 * 0 + charVal c)]
    rw [this]
    simp [List.length_cons, pow_succ]
    ring

theorem parseDigits_append (a b : List Char) :
    parseDigits (a ++ b) = parseDigits a * 10 ^ b.length + parseDigits b := by
  show (a ++ b).foldl _ 0 = _
  rw [List.foldl_append]
  exact foldl_parse b (a.foldl _ 0)

theorem parseDigits_replicate_zero (k : Nat) :
    parseDigits (List.replicate k '0') = 0 := by
  induction k with
  | zero => rfl
  | succ k ih =>
    show (List.replicate (k + 1) '0').foldl _ 0 = 0
    rw [List.replicate_succ]
    show (List.replicate k '0').foldl _ (10 * 0 + charVal '0') = 0
    have : 10 * 0 + charVal '0' = 0 := by decide
    rw [this]
    exact ih

theorem parseDigits_zeros_append (k : Nat) (l : List Char) :
    parseDigits (List.replicate k '0' ++ l) = parseDigits l := by
  rw [parseDigits_append, parseDigits_replicate_zero]
  simp

theorem natCharsAux_eq (fuel : Nat) :
    ∀ n, n ≤ fuel → natCharsAux fuel n = ((Nat.digits 10 n).map digitChar).reverse := by
  induction fuel with
  | zero =>
    intro n hn
    have : n = 0 := Nat.le_zero.mp hn
    subst this
    simp [natCharsAux]
  | succ fuel ih =>
    intro n hn
    by_cases h0 : n = 0
    · subst h0; simp [natCharsAux]
    · have hpos : 0 < n := Nat.pos_of_ne_zero h0
      have hdiv : n / 10 ≤ fuel := by
        have : n / 10 < n := Nat.div_lt_self hpos (by norm_num)
        omega
      rw [show natCharsAux (fuel + 1) n
            = natCharsAux fuel (n / 10) ++ [digitChar (n % 10)] by
            simp [natCharsAux, h0]]
      rw [ih (n / 10) hdiv]
      rw [Nat.digits_def' (by norm_num : (1:ℕ) < 10) hpos]
      simp

theorem bigIntToString_data (n : Nat) (hn : n ≠ 0) :
    (bigIntToString n).data = ((Nat.digits 10 n).map digitChar).reverse := by
  rw [bigIntToString, if_neg hn, data_mk, natCharsAux_eq n n (Nat.le_refl n)]

theorem parseDigits_rev_map (L : List Nat) (h : ∀ d ∈ L, d < 10) :
    parseDigits ((L.map digitChar).reverse) = Nat.ofDigits 10 L := by
  induction L with
  | nil => rfl
  | cons d t ih =>
    rw [List.map_cons, List.reverse_cons, parseDigits_append]
    have hd : d < 10 := h d (List.mem_cons_self d t)
    have ht : ∀ x ∈ t, x < 10 := fun x hx => h x (List.mem_cons_of_mem d hx)
    rw [ih ht]
    show Nat.ofDigits 10 t * 10 ^ 1 + parseDigits [digitChar d] = _
    have : parseDigits [digitChar d] = charVal (digitChar d) := by
      show 10 * 0 + charVal (digitChar d) = _
      omega
    rw [this, charVal_digitChar d hd, Nat.ofDigits_cons]
    push_cast
    ring

theorem parseDigits_bigIntToString (n : Nat) :
    parseDigits (bigIntToString n).data = n := by
  by_cases h0 : n = 0
  · subst h0; decide
  · rw [bigIntToString_data n h0,
      parseDigits_rev_map _ (fun d hd => Nat.digits_lt_base (by norm_num) hd),
      Nat.ofDigits_digits]

theorem bigIntToString_ne_nil (n : Nat) : (bigIntToString n).data ≠ [] := by
  by_cases h0 : n = 0
  · subst h0; decide
  · rw [bigIntToString_data n h0]
    simp [Nat.digits_ne_nil_iff_ne_zero.mpr h0]

theorem mem_bigIntToString_isDigit (n : Nat) :
    ∀ c ∈ (bigIntToString n).data, c.isDigit = true := by
  by_cases h0 : n = 0
  · subst h0; decide
  · rw [bigIntToString_data n h0]
    intro c hc
    rw [List.mem_reverse, List.mem_map] at hc
    obtain ⟨d, hd, rfl⟩ := hc
    exact isDigit_digitChar d (Nat.digits_lt_base (by norm_num) hd)

theorem dot_not_mem_bigIntToString (n : Nat) : '.' ∉ (bigIntToString n).data := by
  intro h
  have := mem_bigIntToString_isDigit n '.' h
  simp [Char.isDigit] at this

theorem bigIntToString_length_le (f d : Nat) (hf : f ≠ 0) (h : f < 10 ^ d) :
    (bigIntToString f).data.length ≤ d := by
  rw [bigIntToString_data f hf]
  rw [List.length_reverse, List.length_map]
  rw [Nat.digits_len 10 f (by norm_num) hf]
  have := (Nat.lt_pow_iff_log_lt (by norm_num : 1 < 10) hf).mp h
  omega

theorem splitOnDot_ne_nil (l : List Char) : splitOnDot l ≠ [] := by
  cases l with
  | nil => simp [splitOnDot]
  | cons c t =>
    rw [splitOnDot]
    by_cases hc : c = '.'
    · simp [hc]
    · simp only [if_neg hc]
      cases splitOnDot t <;> simp

theorem splitOnDot_noDot (l : List Char) (h : '.' ∉ l) : splitOnDot l = [l] := by
  induction l with
  | nil => rfl
  | cons c t ih =>
    have hc : c ≠ '.' := fun hc => h (hc ▸ List.mem_cons_self c t)
    have ht : '.' ∉ t := fun ht => h (List.mem_cons_of_mem c ht)
    rw [splitOnDot, if_neg hc, ih ht]

theorem splitOnDot_append (a b : List Char) (h : '.' ∉ a) :
    splitOnDot (a ++ '.' :: b) = a :: splitOnDot b := by
  induction a with
  | nil => simp [splitOnDot]
  | cons c t ih =>
    have hc : c ≠ '.' := fun hc => h (hc ▸ List.mem_cons_self c t)
    have ht : '.' ∉ t := fun ht => h (List.mem_cons_of_mem c ht)
    rw [List.cons_append, splitOnDot, if_neg hc, ih ht]

theorem dropTrailingZeros_spec (l : List Char) :
    l = dropTrailingZeros l
        ++ List.replicate (l.length - (dropTrailingZeros l).length) '0' := by
  unfold dropTrailingZeros
  have hsplit := List.takeWhile_append_dropWhile (fun c : Char => c == '0') l.reverse
  have htake : (l.reverse.takeWhile (fun c : Char => c == '0'))
      = List.replicate (l.reverse.takeWhile (fun c : Char => c == '0')).length '0' := by
    apply List.eq_replicate_of_mem
    intro c hc
    have := List.mem_takeWhile_imp hc
    rwa [beq_iff_eq] at this
  have hlen := congrArg List.length hsplit
  rw [List.length_append, List.length_reverse] at hlen
  conv_lhs => rw [← l.reverse_reverse, ← hsplit, List.reverse_append]
  rw [htake, List.reverse_replicate]
  have hkey : (List.takeWhile (fun c : Char => c == '0') l.reverse).length
      = l.length - ((List.dropWhile (fun c : Char => c == '0') l.reverse).reverse).length := by
    rw [List.length_reverse]
    omega
  rw [hkey]

/-! ## C1: round trip between base units and decimal strings -/

theorem toBaseUnits_fromBaseUnits (n d : Nat) :
    AmountFormatter.toBaseUnits (AmountFormatter.fromBaseUnits n d) d
      = bigIntToString n := by
  unfold AmountFormatter.fromBaseUnits AmountFormatter.toBaseUnits
  set D := 10 ^ d with hD
  by_cases hf : n % D = 0
  · rw [if_pos hf]
    have hsplit : splitOnDot (bigIntToString (n / D)).data
        = [(bigIntToString (n / D)).data] :=
      splitOnDot_noDot _ (dot_not_mem_bigIntToString _)
    rw [hsplit]
    have hne : (bigIntToString (n / D)).data.isEmpty = false := by
      cases h : (bigIntToString (n / D)).data with
      | nil => exact absurd h (bigIntToString_ne_nil _)
      | cons x t => rfl
    simp only [List.getD_cons_zero, List.getD_cons_succ, List.getD_nil, hne,
      Bool.false_eq_true, if_false]
    rw [parseDigits_bigIntToString]
    have hpad : padEndZeros ([] : List Char) d = List.replicate d '0' := by
      unfold padEndZeros
      simp
    rw [hpad, List.take_of_length_le (by simp), parseDigits_replicate_zero]
    have : n / D * D + 0 = n := by
      rw [Nat.add_zero]
      exact Nat.div_mul_cancel (Nat.dvd_of_mod_eq_zero hf)
    rw [this]
  · rw [if_neg hf]
    set F := (bigIntToString (n % D)).data with hF
    set padded := padStartZeros F d with hpadded
    set trimmed := dropTrailingZeros padded with htrimmed
    have hdata : (bigIntToString (n / D) ++ "." ++ String.mk trimmed).data
        = (bigIntToString (n / D)).data ++ '.' :: trimmed := by
      rw [data_append, data_append, data_mk, List.append_assoc]
      rfl
    rw [hdata]
    have hFlen : F.length ≤ d := by
      apply bigIntToString_length_le _ _ hf
      rw [hD]
      exact Nat.mod_lt n (Nat.pos_pow_of_pos d (by norm_num))
    have hpaddedLen : padded.length = d := by
      rw [hpadded, padStartZeros, List.length_append, List.length_replicate]
      omega
    have hdecomp : padded = trimmed
        ++ List.replicate (padded.length - trimmed.length) '0' :=
      dropTrailingZeros_spec padded
    have htrimLen : trimmed.length ≤ d := by
      have := congrArg List.length hdecomp
      simp at this
      omega
    have hnoDotPadded : '.' ∉ padded := by
      intro hmem
      rw [hpadded, padStartZeros] at hmem
      rcases List.mem_append.mp hmem with h | h
      · have := List.eq_of_mem_replicate h
        simp at this
      · exact dot_not_mem_bigIntToString _ (hF ▸ h)
    have hnoDotTrimmed : '.' ∉ trimmed := by
      intro hmem
      apply hnoDotPadded
      rw [hdecomp]
      exact List.mem_append_left _ hmem
    rw [splitOnDot_append _ _ (dot_not_mem_bigIntToString _),
      splitOnDot_noDot _ hnoDotTrimmed]
    have hne : (bigIntToString (n / D)).data.isEmpty = false := by
      cases h : (bigIntToString (n / D)).data with
      | nil => exact absurd h (bigIntToString_ne_nil _)
      | cons x t => rfl
    simp only [List.getD_cons_zero, List.getD_cons_succ, List.getD_nil, hne,
      Bool.false_eq_true, if_false]
    rw [parseDigits_bigIntToString]
    have hpadEnd : padEndZeros trimmed d = padded := by
      rw [padEndZeros]
      conv_rhs => rw [hdecomp]
      congr 2
      omega
    rw [hpadEnd, List.take_of_length_le (by rw [hpaddedLen])]
    have hparsePadded : parseDigits padded = n % D := by
      rw [hpadded, padStartZeros, parseDigits_zeros_append, hF,
        parseDigits_bigIntToString]
    rw [hparsePadded]
    have : n / D * D + n % D = n := by
      conv_rhs => rw [← Nat.div_add_mod n D]
      ring
    rw [this]

/-- C1: for every valid base-unit integer string (the canonical decimal
representation `bigIntToString n` of its value `n`) and every valid
decimal-place count `d` (the source computes `10 ** decimals` in floating
point, which is exact precisely for `d ≤ 22`; every count the program
uses is 6), converting to a decimal string with
`AmountFormatter.fromBaseUnits` and back with
`AmountFormatter.toBaseUnits` is the identity. -/
theorem c1_base_units_round_trip (n d : Nat) (_hd : d ≤ 22) :
    AmountFormatter.toBaseUnits (AmountFormatter.fromBaseUnits n d) d
      = bigIntToString n :=
  toBaseUnits_fromBaseUnits n d

/-- Witness for C1 at `n = 1234567`, `d = 6`. -/
theorem c1_base_units_round_trip_witness :
    6 ≤ 22 ∧
      AmountFormatter.toBaseUnits (AmountFormatter.fromBaseUnits 1234567 6) 6
        = bigIntToString 1234567 :=
  ⟨by decide, c1_base_units_round_trip 1234567 6 (by decide)⟩

/-! ## Transaction parser (`src/lib/blockchain/transaction-parser.ts`) -/

/-- A normalized amount: decimal value string, denomination, display symbol. -/
structure Amount where
  value : String
  denom : String
  symbol : String
deriving DecidableEq

/-- The closed enumeration of transaction types from
`src/lib/blockchain/types.ts`. -/
inductive TransactionType where
  | swap
  | transfer
  | stake
  | unstake
  | claim_rewards
  | provide_liquidity
  | remove_liquidity
  | vote
  | unknown
deriving DecidableEq

/-- Transaction status from `src/lib/blockchain/types.ts`. -/
inductive TransactionStatus where
  | success
  | failed
  | pending
deriving DecidableEq

/-- A raw coin record `{denom, amount}` as found inside messages; either
field may be absent on a malformed record. -/
structure JsCoin where
  denom : Option String := none
  amount : Option String := none
deriving DecidableEq

/-- A route hop of a swap message; either denomination may be absent. -/
structure Route where
  tokenOutDenom : Option String := none
  tokenInDenom : Option String := none
deriving DecidableEq

/-- A raw ledger message, duck-typed in the source; modeled as a record of
optional fields.  `msg.amount` is an array of coins on `MsgSend` records
and a single coin on `MsgDelegate`/`MsgUndelegate` records; the two
shapes are modeled as the two fields `sendAmount` and `coinAmount`. -/
structure Msg where
  atType : Option String := none
  typeUrl : Option String := none
  tokenIn : Option JsCoin := none
  tokenOut : Option JsCoin := none
  tokenOutMinAmount : Option String := none
  tokenInMaxAmount : Option String := none
  routes : Option (List Route) := none
  sendAmount : Option (List JsCoin) := none
  coinAmount : Option JsCoin := none
  tokensIn : Option (List JsCoin) := none
  tokensOut : Option (List JsCoin) := none
deriving DecidableEq

/-- The fee record `tx.authInfo.fee`: an optional list of coins. -/
structure JsFee where
  amount : Option (List JsCoin) := none
deriving DecidableEq

/-- Result of `parseMessages`: a type and the list of amounts moved. -/
structure ParsedTransaction where
  type : TransactionType
  amounts : List Amount
deriving DecidableEq

namespace TransactionParser

/-- Source `getDecimals(denom)`: IBC denominations and the three known
denominations use 6 decimals, as does the fallback — the table's lookup
`knownDecimals[denom] || 6`. -/
def getDecimals (denom : String) : Nat :=
  if strStartsWith denom "ibc/" then 6
  else if denom = "uosmo" then 6
  else if denom = "uion" then 6
  else if denom = "uatom" then 6
  else 6

/-- Source `denomToSymbol(denom)`: known-table lookup, IBC shortening
`IBC/` + six uppercased hash characters (`denom.slice(4, 10)`), else strip
one leading `'u'` and uppercase, else uppercase. -/
def denomToSymbol (denom : String) : String :=
  if denom = "uosmo" then "OSMO"
  else if denom = "uion" then "ION"
  else if denom = "uatom" then "ATOM"
  else if strStartsWith denom "ibc/" then
    "IBC/" ++ toUpperStr (String.mk ((denom.data.drop 4).take 6))
  else if strStartsWith denom "u" then
    toUpperStr (String.mk (denom.data.drop 1))
  else toUpperStr denom

/-- Source `formatAmount(value, denom)` with the denomination exactly as
it arrives from the caller, possibly `undefined` (a route lookup can
produce `undefined`): the source first runs `getDecimals(denom)`, which
throws a `TypeError` (`denom.startsWith` on `undefined`) when the
denomination is absent; then `BigInt(value)` may throw a `SyntaxError`;
otherwise the arithmetic is identical to
`AmountFormatter.fromBaseUnits`.  A throw is modeled as `none`. -/
def formatAmountU (value : String) (denom : Option String) : Option String :=
  match denom with
  | none => none
  | some d =>
    let decimals := getDecimals d
    match jsBigInt value with
    | none => none
    | some numValue =>
      let divisor := 10 ^ decimals
      let integerPart := numValue / divisor
      let fractionalPart := numValue % divisor
      if fractionalPart = 0 then
        some (bigIntToString integerPart)
      else
        let fractionalStr := padStartZeros (bigIntToString fractionalPart).data decimals
        let trimmedFractional := dropTrailingZeros fractionalStr
        some (bigIntToString integerPart ++ "." ++ String.mk trimmedFractional)

/-- Source `formatAmount` as called with a present (string)
denomination. -/
def formatAmount (value : String) (denom : String) : Option String :=
  formatAmountU value (some denom)

/-- Source `parseAmount(amount)`: `null`/`undefined` yields the fixed
default without touching `formatAmount`; otherwise missing fields
default (`denom || 'unknown'`, `amount || '0'`), and a `formatAmount`
throw (non-digit amount string) propagates. -/
def parseAmount (amount : Option JsCoin) : Option Amount :=
  match amount with
  | none => some { value := "0", denom := "unknown", symbol := "UNKNOWN" }
  | some a =>
    let denom := jsOr a.denom "unknown"
    let value := jsOr a.amount "0"
    match formatAmount value denom with
    | none => none
    | some v =>
      some { value := v, denom := denom, symbol := denomToSymbol denom }

/-- Source `parseAmounts(amounts)`: map `parseAmount` over a coin array;
the first element whose parse throws aborts the whole map. -/
def parseAmounts : List JsCoin → Option (List Amount)
  | [] => some []
  | a :: rest =>
    match parseAmount (some a) with
    | none => none
    | some x =>
      match parseAmounts rest with
      | none => none
      | some xs => some (x :: xs)

/-- Source `parseFee(fee)`: absent fee, absent amount list or empty
amount list yield the zero fee in the chain default denomination,
otherwise the first entry is parsed (and its throw propagates). -/
def parseFee (fee : Option JsFee) : Option Amount :=
  match fee with
  | none => some { value := "0", denom := "uosmo", symbol := "OSMO" }
  | some f =>
    match f.amount with
    | none => some { value := "0", denom := "uosmo", symbol := "OSMO" }
    | some [] => some { value := "0", denom := "uosmo", symbol := "OSMO" }
    | some (c :: _) => parseAmount (some c)

/-- The message embedded type identifier:
`firstMsg['@type'] || firstMsg.typeUrl || ''`. -/
def msgTypeOf (msg : Msg) : String := jsOr msg.atType (jsOr msg.typeUrl "")

/-- Source `parseMsgSwapExactAmountIn`: the input token when present,
then the output minimum.  The last route raw `tokenOutDenom` is handed
to `formatAmount` as-is — when it is absent that call throws (see
`formatAmountU`) — while the record `denom`/`symbol` fields use
`tokenOutDenom || 'unknown'`. -/
def parseMsgSwapExactAmountIn (msg : Msg) : Option ParsedTransaction :=
  let inputAmounts : Option (List Amount) :=
    match msg.tokenIn with
    | some c =>
      match parseAmount (some c) with
      | none => none
      | some a => some [a]
    | none => some []
  match inputAmounts with
  | none => none
  | some inAmts =>
    let outputAmounts : Option (List Amount) :=
      match msg.tokenOutMinAmount, msg.routes with
      | some amt, some rs =>
        if amt ≠ "" ∧ rs ≠ [] then
          match rs.getLast? with
          | some lastRoute =>
            match formatAmountU amt lastRoute.tokenOutDenom with
            | none => none
            | some v =>
              some [{ value := v
                      denom := jsOr lastRoute.tokenOutDenom "unknown"
                      symbol := denomToSymbol
                        (jsOr lastRoute.tokenOutDenom "unknown") }]
          | none => some []
        else some []
      | _, _ => some []
    match outputAmounts with
    | none => none
    | some outAmts => some { type := .swap, amounts := inAmts ++ outAmts }

/-- Source `parseMsgSwapExactAmountOut`: the input maximum via the first
route raw `tokenInDenom` (a throw when absent, as in
`parseMsgSwapExactAmountIn`), then the output token. -/
def parseMsgSwapExactAmountOut (msg : Msg) : Option ParsedTransaction :=
  let inputAmounts : Option (List Amount) :=
    match msg.tokenInMaxAmount, msg.routes with
    | some amt, some rs =>
      if amt ≠ "" ∧ rs ≠ [] then
        match rs.head? with
        | some firstRoute =>
          match formatAmountU amt firstRoute.tokenInDenom with
          | none => none
          | some v =>
            some [{ value := v
                    denom := jsOr firstRoute.tokenInDenom "unknown"
                    symbol := denomToSymbol
                      (jsOr firstRoute.tokenInDenom "unknown") }]
        | none => some []
      else some []
    | _, _ => some []
  match inputAmounts with
  | none => none
  | some inAmts =>
    match msg.tokenOut with
    | some c =>
      match parseAmount (some c) with
      | none => none
      | some a => some { type := .swap, amounts := inAmts ++ [a] }
    | none => some { type := .swap, amounts := inAmts }

/-- Source `parseMsgSend`: all amounts of `msg.amount || []`. -/
def parseMsgSend (msg : Msg) (_address : String) : Option ParsedTransaction :=
  match parseAmounts (msg.sendAmount.getD []) with
  | none => none
  | some amts => some { type := .transfer, amounts := amts }

/-- Source `parseMsgDelegate`: the single amount when present. -/
def parseMsgDelegate (msg : Msg) : Option ParsedTransaction :=
  match msg.coinAmount with
  | some c =>
    match parseAmount (some c) with
    | none => none
    | some a => some { type := .stake, amounts := [a] }
  | none => some { type := .stake, amounts := [] }

/-- Source `parseMsgUndelegate`: the single amount when present. -/
def parseMsgUndelegate (msg : Msg) : Option ParsedTransaction :=
  match msg.coinAmount with
  | some c =>
    match parseAmount (some c) with
    | none => none
    | some a => some { type := .unstake, amounts := [a] }
  | none => some { type := .unstake, amounts := [] }

/-- Source `parseMsgWithdrawDelegatorReward`: reward magnitudes live in
the transaction events, not the message, so no amounts are extracted. -/
def parseMsgWithdrawDelegatorReward (_msg : Msg) : Option ParsedTransaction :=
  some { type := .claim_rewards, amounts := [] }

/-- Source `parseMsgJoinPool`: all tokens-in amounts. -/
def parseMsgJoinPool (msg : Msg) : Option ParsedTransaction :=
  match parseAmounts (msg.tokensIn.getD []) with
  | none => none
  | some amts => some { type := .provide_liquidity, amounts := amts }

/-- Source `parseMsgExitPool`: all tokens-out amounts. -/
def parseMsgExitPool (msg : Msg) : Option ParsedTransaction :=
  match parseAmounts (msg.tokensOut.getD []) with
  | none => none
  | some amts => some { type := .remove_liquidity, amounts := amts }

/-- Source `parseMsgVote`: no amounts. -/
def parseMsgVote (_msg : Msg) : Option ParsedTransaction :=
  some { type := .vote, amounts := [] }

/-- Source `parseMessages(messages, address)`: a `null` or empty list is
`unknown`; otherwise the first message type identifier is matched
against the fixed substring patterns, in order, the first match winning;
no match is `unknown`.  A throw inside a branch (`none`) propagates to
the caller. -/
def parseMessages (messages : Option (List Msg)) (address : String) :
    Option ParsedTransaction :=
  match messages with
  | none => some { type := .unknown, amounts := [] }
  | some [] => some { type := .unknown, amounts := [] }
  | some (firstMsg :: _) =>
    let msgType := msgTypeOf firstMsg
    if strIncludes msgType "MsgSwapExactAmountIn" then
      parseMsgSwapExactAmountIn firstMsg
    else if strIncludes msgType "MsgSwapExactAmountOut" then
      parseMsgSwapExactAmountOut firstMsg
    else if strIncludes msgType "MsgSend" then
      parseMsgSend firstMsg address
    else if strIncludes msgType "MsgDelegate" then
      parseMsgDelegate firstMsg
    else if strIncludes msgType "MsgUndelegate" then
      parseMsgUndelegate firstMsg
    else if strIncludes msgType "MsgWithdrawDelegatorReward" then
      parseMsgWithdrawDelegatorReward firstMsg
    else if strIncludes msgType "MsgJoinPool" || strIncludes msgType "JoinPool" then
      parseMsgJoinPool firstMsg
    else if strIncludes msgType "MsgExitPool" || strIncludes msgType "ExitPool" then
      parseMsgExitPool firstMsg
    else if strIncludes msgType "MsgVote" then
      parseMsgVote firstMsg
    else some { type := .unknown, amounts := [] }

end TransactionParser

/-! ## C2: base-unit-to-decimal conversion vectors -/

/-- C2: with 6 decimal places the conversion returns normally (`some`)
and yields `"1000000" ↦ "1"`, `"1234567" ↦ "1.234567"`,
`"1500000" ↦ "1.5"` (trailing fractional zeros stripped), `"0" ↦ "0"` and
`"1" ↦ "0.000001"` (fractional part left-padded); and any amount whose
fractional remainder is zero is emitted without a decimal point. -/
theorem c2_to_decimal_vectors :
    TransactionParser.formatAmount "1000000" "uosmo" = some "1" ∧
    TransactionParser.formatAmount "1234567" "uosmo" = some "1.234567" ∧
    TransactionParser.formatAmount "1500000" "uosmo" = some "1.5" ∧
    TransactionParser.formatAmount "0" "uosmo" = some "0" ∧
    TransactionParser.formatAmount "1" "uosmo" = some "0.000001" ∧
    (∀ n : Nat, n % 10 ^ 6 = 0 →
      '.' ∉ (AmountFormatter.fromBaseUnits n 6).data) := by
  refine ⟨by decide, by decide, by decide, by decide, by decide, ?_⟩
  intro n hn
  unfold AmountFormatter.fromBaseUnits
  simp only [hn, if_pos]
  exact dot_not_mem_bigIntToString _

/-- Witness for C2's universal clause at `n = 2000000`. -/
theorem c2_to_decimal_vectors_witness :
    2000000 % 10 ^ 6 = 0 ∧
      '.' ∉ (AmountFormatter.fromBaseUnits 2000000 6).data :=
  ⟨by decide, c2_to_decimal_vectors.2.2.2.2.2 2000000 (by decide)⟩

/-! ## Ledger client (`src/lib/blockchain/osmosis-client.ts`) -/

/-- One character of the bech32 body character class `[a-z0-9]`. -/
def isAddrChar (c : Char) : Bool :=
  (decide ('a' ≤ c) && decide (c ≤ 'z')) || (decide ('0' ≤ c) && decide (c ≤ '9'))

namespace OsmosisClient

/-- Source `validateAddress(address)`: the regex `^osmo[a-z0-9]{39}$` — total
length 43, the fixed lowercase "osmo" head and 39 characters drawn
from `[a-z0-9]`. -/
def validateAddress (address : String) : Bool :=
  decide (address.data.length = 43)
    && "osmo".data.isPrefixOf address.data
    && (address.data.drop 4).all isAddrChar

end OsmosisClient

theorem isAddrChar_iff (c : Char) :
    isAddrChar c = true ↔ ('a' ≤ c ∧ c ≤ 'z') ∨ ('0' ≤ c ∧ c ≤ '9') := by
  simp [isAddrChar]

/-- C3: `validateAddress` returns `true` exactly for strings that are the
fixed lowercase "osmo" head followed by exactly 39 characters from
`[a-z0-9]` (total length 43); in particular it returns `false` for a
wrong head, lengths 42 and 44, uppercase characters, punctuation, the
empty string and a whitespace-only string, and `true` on a conforming
43-character address. -/
theorem c3_validate_address :
    (∀ address : String,
      OsmosisClient.validateAddress address = true ↔
        ∃ rest : List Char,
          address.data = "osmo".data ++ rest ∧
          rest.length = 39 ∧
          ∀ c ∈ rest, ('a' ≤ c ∧ c ≤ 'z') ∨ ('0' ≤ c ∧ c ≤ '9')) ∧
    OsmosisClient.validateAddress "" = false ∧
    OsmosisClient.validateAddress " " = false ∧
    OsmosisClient.validateAddress
      "cosmos1abcdefghijklmnopqrstuvwxyzabcdefghij" = false ∧
    OsmosisClient.validateAddress
      "osmo1abcdefghijklmnopqrstuvwxyzabcdefghijk" = false ∧
    OsmosisClient.validateAddress
      "osmo1abcdefghijklmnopqrstuvwxyzabcdefghijklm" = false ∧
    OsmosisClient.validateAddress
      "osmo1Abcdefghijklmnopqrstuvwxyzabcdefghijkl" = false ∧
    OsmosisClient.validateAddress
      "osmo1abcdefghijklmnopqrstuvwxyzabcdefghijk!" = false ∧
    OsmosisClient.validateAddress
      "osmo1abcdefghijklmnopqrstuvwxyzabcdefghijkl" = true := by
  refine ⟨?_, by decide, by decide, by decide, by decide, by decide, by decide,
    by decide, by decide⟩
  intro address
  unfold OsmosisClient.validateAddress
  simp only [Bool.and_eq_true, decide_eq_true_eq, List.isPrefixOf_iff_prefix,
    List.all_eq_true]
  constructor
  · rintro ⟨⟨hlen, hpre⟩, hall⟩
    refine ⟨address.data.drop 4, ?_, ?_, ?_⟩
    · obtain ⟨t, ht⟩ := hpre
      have h4 : address.data.take 4 = "osmo".data := by
        rw [← ht]
        rfl
      conv_lhs => rw [← List.take_append_drop 4 address.data]
      rw [h4]
    · rw [List.length_drop, hlen]
    · intro c hc
      exact (isAddrChar_iff c).mp (hall c hc)
  · rintro ⟨rest, hdata, hlen, hclass⟩
    refine ⟨⟨?_, ?_⟩, ?_⟩
    · rw [hdata, List.length_append, hlen]
      rfl
    · exact ⟨rest, hdata.symm⟩
    · intro c hc
      rw [hdata, List.drop_left' (by rfl)] at hc
      exact (isAddrChar_iff c).mpr (hclass c hc)

/-- Witness: C3's characterization instantiated at a concrete address. -/
theorem c3_validate_address_witness :
    OsmosisClient.validateAddress "osmo1abcdefghijklmnopqrstuvwxyzabcdefghijkl"
        = true ↔
      ∃ rest : List Char,
        "osmo1abcdefghijklmnopqrstuvwxyzabcdefghijkl".data
            = "osmo".data ++ rest ∧
        rest.length = 39 ∧
        ∀ c ∈ rest, ('a' ≤ c ∧ c ≤ 'z') ∨ ('0' ≤ c ∧ c ≤ '9') :=
  c3_validate_address.1 "osmo1abcdefghijklmnopqrstuvwxyzabcdefghijkl"

end Osmo

namespace Osmo

/-! ## Fetching and pagination (`OsmosisClient.fetchTransactions`) -/

/-- Fetch options (`FetchOptions` from `src/lib/blockchain/types.ts`).
Timestamps/dates are modeled as milliseconds since the epoch. -/
structure FetchOptions where
  limit : Option Nat := none
  offset : Option Nat := none
  startDate : Option Nat := none
  endDate : Option Nat := none

/-- A raw ledger record as returned by the search endpoint:
`{hash, height, code, tx: {body: {messages, memo}, authInfo: {fee}}}`. -/
structure RawTx where
  hash : String
  height : Nat
  code : Nat
  messages : Option (List Msg) := none
  memo : String := ""
  fee : Option JsFee := none
deriving DecidableEq

/-- A normalized transaction (`Transaction` from
`src/lib/blockchain/types.ts`), timestamp in milliseconds. -/
structure Transaction where
  hash : String
  timestamp : Nat
  type : TransactionType
  status : TransactionStatus
  amounts : List Amount
  fee : Amount
  memo : Option String
deriving DecidableEq

namespace OsmosisClient

/-- Source `parseTransaction(tx, address)`: timestamp approximated as
`height * 5000` ms (5 s per block), status from the result code
(0 is success), type and amounts from the classifier, fee from
`parseFee`, memo `tx.tx.body.memo || undefined`.  A throw inside the
classifier or fee parse (`none`) aborts the record. -/
def parseTransaction (tx : RawTx) (address : String) : Option Transaction :=
  match TransactionParser.parseMessages tx.messages address with
  | none => none
  | some parsed =>
    match TransactionParser.parseFee tx.fee with
    | none => none
    | some fee =>
      some { hash := tx.hash
             timestamp := tx.height * 5000
             type := parsed.type
             status := if tx.code = 0 then .success else .failed
             amounts := parsed.amounts
             fee := fee
             memo := if tx.memo = "" then none else some tx.memo }

/-- The result of one `searchTx` page request: a page of raw records, or a
thrown error. -/
inductive PageResult where
  | ok : List RawTx → PageResult
  | err : PageResult

/-- The per-record date filter: a record is kept unless an enabled
`startDate`/`endDate` bound excludes its timestamp (`continue` in the
source). -/
def keepTx (options : FetchOptions) (t : Transaction) : Bool :=
  (match options.startDate with
   | some s => !decide (t.timestamp < s)
   | none => true)
  && (match options.endDate with
      | some e => !decide (e < t.timestamp)
      | none => true)

/-- The record-processing `for` loop of one page: parse each record in
order, skip records a date filter excludes, push the rest.  A parse
throw keeps the records already pushed and reports the throw (`true`),
records after it are not processed — exactly the source push-then-throw
order inside the `try` block. -/
def parsePage (options : FetchOptions) (address : String) :
    List RawTx → List Transaction × Bool
  | [] => ([], false)
  | tx :: rest =>
    match parseTransaction tx address with
    | none => ([], true)
    | some t =>
      match parsePage options address rest with
      | (ts, threw) =>
        if keepTx options t then (t :: ts, threw) else (ts, threw)

/-- The `while (hasMore)` pagination loop of `fetchTransactions`.  The
`pages` argument is the oracle for the successive `searchTx` page
requests the loop issues (the source computes consecutive page numbers
from `offset`); the theorems below only instantiate it with enough pages
that the loop always stops before the list runs out, and exhaustion is
modeled as an empty page.  An empty page or a short page stops
pagination; a thrown page request — and likewise a throw while parsing a
record of the page — is caught by the loop `catch` and stops pagination
with the records accumulated up to the throw; reaching a requested
overall `options.limit` (JavaScript-truthy, so a nonzero value) stops
pagination. -/
def pageLoop (limit : Nat) (optLimit : Option Nat) (options : FetchOptions)
    (address : String) : List Transaction → List PageResult → List Transaction
  | acc, [] => acc
  | acc, PageResult.err :: _ => acc
  | acc, PageResult.ok txs :: rest =>
    if txs.length = 0 then acc
    else
      match parsePage options address txs with
      | (parsed, threw) =>
        if threw then acc ++ parsed
        else if txs.length < limit then acc ++ parsed
        else if (match optLimit with
                 | some l => !decide (l = 0) && decide (l ≤ (acc ++ parsed).length)
                 | none => false) then acc ++ parsed
        else pageLoop limit optLimit options address (acc ++ parsed) rest

/-- Source `fetchTransactions(address, options)`: fail fast when not initialized
(`this.client` null) or when the address does not validate, otherwise run
the pagination loop with page size `options.limit || 100` and return its
accumulated records as a successful result. -/
def fetchTransactions (initialized : Bool) (address : String)
    (options : FetchOptions) (pages : List PageResult) :
    Except String (List Transaction) :=
  if !initialized then
    .error "Client not initialized. Call initialize() first."
  else if !validateAddress address then
    .error "Invalid Osmosis address format"
  else
    let limit := match options.limit with
                 | some l => if l = 0 then 100 else l
                 | none => 100
    .ok (pageLoop limit options.limit options address [] pages)

end OsmosisClient

/-! ## C4: fail-fast preconditions, soft-fail pagination -/

/-- C4: `fetchTransactions` raises an explicit error before any fetching
when the client is not initialized, and an explicit error when the
address fails validation; a page request that throws mid-pagination is
caught: the loop halts and returns the records accumulated so far, and
whenever the preconditions hold the overall result is a success — no
exception propagates for pagination errors. -/
theorem c4_error_handling (address : String) (options : FetchOptions)
    (pages : List OsmosisClient.PageResult) :
    (OsmosisClient.fetchTransactions false address options pages
        = .error "Client not initialized. Call initialize() first.") ∧
    (OsmosisClient.validateAddress address = false →
      OsmosisClient.fetchTransactions true address options pages
        = .error "Invalid Osmosis address format") ∧
    (OsmosisClient.validateAddress address = true →
      ∃ txs, OsmosisClient.fetchTransactions true address options pages
        = .ok txs) ∧
    (∀ (limit : Nat) (optLimit : Option Nat) (acc : List Transaction)
        (rest : List OsmosisClient.PageResult),
      OsmosisClient.pageLoop limit optLimit options address acc
          (OsmosisClient.PageResult.err :: rest) = acc) := by
  refine ⟨rfl, ?_, ?_, ?_⟩
  · intro hv
    unfold OsmosisClient.fetchTransactions
    rw [hv]
    rfl
  · intro hv
    unfold OsmosisClient.fetchTransactions
    rw [hv]
    exact ⟨_, rfl⟩
  · intro limit optLimit acc rest
    rfl

/-- Witness for C4 at concrete inputs: the invalid address
`"bad"` fails fast, a valid address with an immediately-failing page
source still yields a success. -/
theorem c4_error_handling_witness :
    (OsmosisClient.fetchTransactions true "bad" {} [OsmosisClient.PageResult.err]
        = .error "Invalid Osmosis address format") ∧
    (∃ txs, OsmosisClient.fetchTransactions true
        "osmo1abcdefghijklmnopqrstuvwxyzabcdefghijkl" {}
        [OsmosisClient.PageResult.err] = .ok txs) :=
  ⟨(c4_error_handling "bad" {} [OsmosisClient.PageResult.err]).2.1 (by decide),
   (c4_error_handling "osmo1abcdefghijklmnopqrstuvwxyzabcdefghijkl" {}
      [OsmosisClient.PageResult.err]).2.2.1 (by decide)⟩

end Osmo

namespace Osmo

/-! ## C5: pagination completeness -/

theorem keepTx_no_filters (t : Transaction) : OsmosisClient.keepTx {} t = true := rfl

theorem parsePage_ok (address : String) :
    ∀ txs : List RawTx,
      (∀ tx ∈ txs, (OsmosisClient.parseTransaction tx address).isSome = true) →
      OsmosisClient.parsePage {} address txs
        = (txs.filterMap (fun tx => OsmosisClient.parseTransaction tx address),
           false) := by
  intro txs
  induction txs with
  | nil => intro _; rfl
  | cons tx rest ih =>
    intro h
    obtain ⟨t, ht⟩ := Option.isSome_iff_exists.mp (h tx (List.mem_cons_self tx rest))
    have hrest : ∀ x ∈ rest,
        (OsmosisClient.parseTransaction x address).isSome = true :=
      fun x hx => h x (List.mem_cons_of_mem tx hx)
    rw [OsmosisClient.parsePage, ht, ih hrest]
    simp [keepTx_no_filters, List.filterMap_cons, ht]

theorem c5_loop (address : String) (lastPage : List RawTx)
    (rest : List OsmosisClient.PageResult) (hlast : lastPage.length < 100) :
    ∀ (fullPages : List (List RawTx)) (acc : List Transaction),
      (∀ p ∈ fullPages, p.length = 100) →
      (∀ tx ∈ fullPages.flatten ++ lastPage,
        (OsmosisClient.parseTransaction tx address).isSome = true) →
      OsmosisClient.pageLoop 100 none {} address acc
          (fullPages.map OsmosisClient.PageResult.ok
            ++ OsmosisClient.PageResult.ok lastPage :: rest)
        = acc ++ (fullPages.flatten ++ lastPage).filterMap
            (fun tx => OsmosisClient.parseTransaction tx address) := by
  intro fullPages
  induction fullPages with
  | nil =>
    intro acc _ hparse
    have hparseLast : ∀ tx ∈ lastPage,
        (OsmosisClient.parseTransaction tx address).isSome = true := by
      intro tx htx
      exact hparse tx (by simpa using htx)
    by_cases h0 : lastPage.length = 0
    · have hnil : lastPage = [] := List.length_eq_zero.mp h0
      subst hnil
      simp [OsmosisClient.pageLoop]
    · rw [List.map_nil, List.nil_append, OsmosisClient.pageLoop, if_neg h0,
        parsePage_ok address lastPage hparseLast]
      simp only [Bool.false_eq_true, if_false, if_pos hlast]
      simp
  | cons p ps ih =>
    intro acc hfull hparse
    have hp : p.length = 100 := hfull p (List.mem_cons_self p ps)
    have hps : ∀ q ∈ ps, q.length = 100 :=
      fun q hq => hfull q (List.mem_cons_of_mem p hq)
    have hparseP : ∀ tx ∈ p,
        (OsmosisClient.parseTransaction tx address).isSome = true := by
      intro tx htx
      apply hparse
      rw [List.flatten_cons, List.append_assoc]
      exact List.mem_append_left _ htx
    have hparseRest : ∀ tx ∈ ps.flatten ++ lastPage,
        (OsmosisClient.parseTransaction tx address).isSome = true := by
      intro tx htx
      apply hparse
      rw [List.flatten_cons, List.append_assoc]
      exact List.mem_append_right _ htx
    rw [List.map_cons, List.cons_append, OsmosisClient.pageLoop,
      if_neg (by omega : ¬ p.length = 0), parsePage_ok address p hparseP]
    simp only [Bool.false_eq_true, if_false,
      if_neg (by omega : ¬ p.length < 100)]
    rw [ih (acc ++ p.filterMap
      (fun tx => OsmosisClient.parseTransaction tx address)) hps hparseRest]
    simp [List.filterMap_append, List.append_assoc]

/-- C5: with default options (no date filters, no requested overall limit,
so the effective page size is the default 100 and the overall-limit stop
is JavaScript-falsy), a page source consisting of any number of full
pages of exactly the page size followed by one partial or empty page —
every record parsing without a throw, i.e. well-formed ledger records —
makes `fetchTransactions` succeed with exactly the concatenation of the
pages' parsed records in the order the pages were received, with no
duplicates — and the result does not depend on anything after the first
partial/empty page, i.e. no later page is consulted. -/
theorem c5_pagination_completeness (address : String)
    (fullPages : List (List RawTx)) (lastPage : List RawTx)
    (rest : List OsmosisClient.PageResult)
    (hv : OsmosisClient.validateAddress address = true)
    (hfull : ∀ p ∈ fullPages, p.length = 100)
    (hlast : lastPage.length < 100)
    (hparse : ∀ tx ∈ fullPages.flatten ++ lastPage,
      (OsmosisClient.parseTransaction tx address).isSome = true) :
    OsmosisClient.fetchTransactions true address {}
        (fullPages.map OsmosisClient.PageResult.ok
          ++ OsmosisClient.PageResult.ok lastPage :: rest)
      = .ok ((fullPages.flatten ++ lastPage).filterMap
          (fun tx => OsmosisClient.parseTransaction tx address)) := by
  unfold OsmosisClient.fetchTransactions
  rw [hv]
  simp only [Bool.not_true, Bool.false_eq_true, if_false]
  rw [c5_loop address lastPage rest hlast fullPages [] hfull hparse]
  rfl

/-- Witness for C5: one full page of 100 copies of a record, then a
one-record partial page, then a junk page that is never requested; every
record parses without a throw. -/
theorem c5_pagination_completeness_witness :
    OsmosisClient.validateAddress
        "osmo1abcdefghijklmnopqrstuvwxyzabcdefghijkl" = true ∧
    (∀ tx ∈ ([List.replicate 100
          ({ hash := "a", height := 1, code := 0 } : RawTx)]).flatten
        ++ [({ hash := "b", height := 2, code := 1 } : RawTx)],
      (OsmosisClient.parseTransaction tx
        "osmo1abcdefghijklmnopqrstuvwxyzabcdefghijkl").isSome = true) ∧
    OsmosisClient.fetchTransactions true
        "osmo1abcdefghijklmnopqrstuvwxyzabcdefghijkl" {}
        ([List.replicate 100 ({ hash := "a", height := 1, code := 0 } : RawTx)].map
            OsmosisClient.PageResult.ok
          ++ OsmosisClient.PageResult.ok
                [({ hash := "b", height := 2, code := 1 } : RawTx)]
            :: [OsmosisClient.PageResult.err])
      = .ok ((([List.replicate 100
              ({ hash := "a", height := 1, code := 0 } : RawTx)]).flatten
              ++ [({ hash := "b", height := 2, code := 1 } : RawTx)]).filterMap
          (fun tx => OsmosisClient.parseTransaction tx
            "osmo1abcdefghijklmnopqrstuvwxyzabcdefghijkl")) := by
  refine ⟨by decide, by decide, ?_⟩
  exact c5_pagination_completeness
    "osmo1abcdefghijklmnopqrstuvwxyzabcdefghijkl"
    [List.replicate 100 ({ hash := "a", height := 1, code := 0 } : RawTx)]
    [({ hash := "b", height := 2, code := 1 } : RawTx)]
    [OsmosisClient.PageResult.err]
    (by decide) (by simp) (by simp) (by decide)

end Osmo

namespace Osmo

/-! ## C6: message classification -/

/-- C6: classification looks only at the first message: a single
`MsgSend`-pattern message with amount list
`[{denom:"uosmo", amount:"5000000"}]` returns normally with type
`transfer` and amounts `[{value:"5", denom:"uosmo", symbol:"OSMO"}]`; a
null or empty message list yields `unknown` with no amounts; and any
list whose first message matches none of the fixed substring patterns
yields `unknown` with no amounts. -/
theorem c6_classifier (address : String) :
    (TransactionParser.parseMessages
        (some [{ atType := some "/cosmos.bank.v1beta1.MsgSend",
                 sendAmount :=
                   some [{ denom := some "uosmo", amount := some "5000000" }] }])
        address
      = some { type := .transfer,
               amounts := [{ value := "5", denom := "uosmo", symbol := "OSMO" }] }) ∧
    (TransactionParser.parseMessages none address
      = some { type := .unknown, amounts := [] }) ∧
    (TransactionParser.parseMessages (some []) address
      = some { type := .unknown, amounts := [] }) ∧
    (∀ (msg : Msg) (restMsgs : List Msg),
      strIncludes (TransactionParser.msgTypeOf msg) "MsgSwapExactAmountIn" = false →
      strIncludes (TransactionParser.msgTypeOf msg) "MsgSwapExactAmountOut" = false →
      strIncludes (TransactionParser.msgTypeOf msg) "MsgSend" = false →
      strIncludes (TransactionParser.msgTypeOf msg) "MsgDelegate" = false →
      strIncludes (TransactionParser.msgTypeOf msg) "MsgUndelegate" = false →
      strIncludes (TransactionParser.msgTypeOf msg) "MsgWithdrawDelegatorReward" = false →
      strIncludes (TransactionParser.msgTypeOf msg) "MsgJoinPool" = false →
      strIncludes (TransactionParser.msgTypeOf msg) "JoinPool" = false →
      strIncludes (TransactionParser.msgTypeOf msg) "MsgExitPool" = false →
      strIncludes (TransactionParser.msgTypeOf msg) "ExitPool" = false →
      strIncludes (TransactionParser.msgTypeOf msg) "MsgVote" = false →
      TransactionParser.parseMessages (some (msg :: restMsgs)) address
        = some { type := .unknown, amounts := [] }) := by
  refine ⟨rfl, rfl, rfl, ?_⟩
  intro msg restMsgs h1 h2 h3 h4 h5 h6 h7 h8 h9 h10 h11
  simp [TransactionParser.parseMessages, h1, h2, h3, h4, h5, h6, h7, h8, h9,
    h10, h11]

/-- Witness for C6's no-pattern clause at a concrete unrecognized
message. -/
theorem c6_classifier_witness :
    TransactionParser.parseMessages
        (some [{ atType := some "/unknown.module.MsgUnknown" }]) "osmo1test"
      = some { type := .unknown, amounts := [] } :=
  (c6_classifier "osmo1test").2.2.2
    { atType := some "/unknown.module.MsgUnknown" } []
    (by decide) (by decide) (by decide) (by decide) (by decide) (by decide)
    (by decide) (by decide) (by decide) (by decide) (by decide)

end Osmo

namespace Osmo

/-! ## Date formatting (`src/lib/utils/date-formatter.ts`) and CSV export -/

namespace DateFormatter

/-- Gregorian `(year, month, day)` from a day count since 1970-01-01 (the
civil-from-days calculation realized by `Date.prototype.toISOString` for
non-negative timestamps). -/
def civilFromDays (z : Nat) : Nat × Nat × Nat :=
  let days := z + 719468
  let era := days / 146097
  let doe := days % 146097
  let yoe := (doe - doe / 1460 + doe / 36524 - doe / 146096) / 365
  let y := yoe + era * 400
  let doy := doe - (365 * yoe + yoe / 4 - yoe / 100)
  let mp := (5 * doy + 2) / 153
  let d := doy - (153 * mp + 2) / 5 + 1
  let m := if mp < 10 then mp + 3 else mp - 9
  (if m ≤ 2 then y + 1 else y, m, d)

/-- A number left-padded with zeros to a fixed width. -/
def padNum (n w : Nat) : String :=
  String.mk (padStartZeros (bigIntToString n).data w)

/-- Source `DateFormatter.toISO8601` on a (non-negative, millisecond) timestamp:
`Date.prototype.toISOString`, i.e. `YYYY-MM-DDTHH:mm:ss.sssZ`, UTC. -/
def toISO8601 (t : Nat) : String :=
  let days := t / 86400000
  let msOfDay := t % 86400000
  let hh := msOfDay / 3600000
  let mm := msOfDay % 3600000 / 60000
  let ss := msOfDay % 60000 / 1000
  let ms := msOfDay % 1000
  let ymd := civilFromDays days
  padNum ymd.1 4 ++ "-" ++ padNum ymd.2.1 2 ++ "-" ++ padNum ymd.2.2 2 ++ "T"
    ++ padNum hh 2 ++ ":" ++ padNum mm 2 ++ ":" ++ padNum ss 2 ++ "."
    ++ padNum ms 3 ++ "Z"

/-- Source `DateFormatter.formatForCSV(date)` delegates to `toISO8601`. -/
def formatForCSV (t : Nat) : String := toISO8601 t

end DateFormatter

/-- One row of the fixed 10-column report
(`AwakenTaxRow` in the exporter source). -/
structure AwakenTaxRow where
  date : String
  type : String
  buyAmount : String
  buyCurrency : String
  sellAmount : String
  sellCurrency : String
  feeAmount : String
  feeCurrency : String
  exchange : String
  transactionId : String
deriving DecidableEq

namespace CSVExporter

/-- Source `mapTransactionType(type)`: the fixed lookup table. -/
def mapTransactionType : TransactionType → String
  | .swap => "Trade"
  | .transfer => "Transfer"
  | .stake => "Stake"
  | .unstake => "Unstake"
  | .claim_rewards => "Income"
  | .provide_liquidity => "Trade"
  | .remove_liquidity => "Trade"
  | .vote => "Other"
  | .unknown => "Other"

/-- Source `mapSwap`: two or more amounts fill Sell from the first and Buy from
the second; exactly one amount fills only Sell. -/
def mapSwap (tx : Transaction) (row : AwakenTaxRow) : AwakenTaxRow :=
  match tx.amounts with
  | a :: b :: _ =>
    { row with sellAmount := a.value, sellCurrency := a.symbol,
               buyAmount := b.value, buyCurrency := b.symbol }
  | [a] => { row with sellAmount := a.value, sellCurrency := a.symbol }
  | [] => row

/-- Source `mapTransfer`: first amount, Sell side only. -/
def mapTransfer (tx : Transaction) (row : AwakenTaxRow) : AwakenTaxRow :=
  match tx.amounts with
  | a :: _ => { row with sellAmount := a.value, sellCurrency := a.symbol }
  | [] => row

/-- Source `mapStake`: first amount to Sell. -/
def mapStake (tx : Transaction) (row : AwakenTaxRow) : AwakenTaxRow :=
  match tx.amounts with
  | a :: _ => { row with sellAmount := a.value, sellCurrency := a.symbol }
  | [] => row

/-- Source `mapUnstake`: first amount to Buy. -/
def mapUnstake (tx : Transaction) (row : AwakenTaxRow) : AwakenTaxRow :=
  match tx.amounts with
  | a :: _ => { row with buyAmount := a.value, buyCurrency := a.symbol }
  | [] => row

/-- Source `mapClaimRewards`: first amount to Buy. -/
def mapClaimRewards (tx : Transaction) (row : AwakenTaxRow) : AwakenTaxRow :=
  match tx.amounts with
  | a :: _ => { row with buyAmount := a.value, buyCurrency := a.symbol }
  | [] => row

/-- Source `mapProvideLiquidity`: all amounts joined with `'+'` into the Sell
pair; Buy is left for manual entry. -/
def mapProvideLiquidity (tx : Transaction) (row : AwakenTaxRow) : AwakenTaxRow :=
  if tx.amounts.isEmpty then row
  else
    { row with
      sellAmount := String.intercalate "+" (tx.amounts.map (fun a => a.value))
      sellCurrency := String.intercalate "+" (tx.amounts.map (fun a => a.symbol)) }

/-- Source `mapRemoveLiquidity`: all amounts joined with `'+'` into the Buy
pair. -/
def mapRemoveLiquidity (tx : Transaction) (row : AwakenTaxRow) : AwakenTaxRow :=
  if tx.amounts.isEmpty then row
  else
    { row with
      buyAmount := String.intercalate "+" (tx.amounts.map (fun a => a.value))
      buyCurrency := String.intercalate "+" (tx.amounts.map (fun a => a.symbol)) }

/-- Source `mapToAwakenTax(tx)`: the common fields, then the per-type amount
mapping; `vote` and `unknown` fall through to the default case and leave
the amount fields empty. -/
def mapToAwakenTax (tx : Transaction) : AwakenTaxRow :=
  let row : AwakenTaxRow :=
    { date := DateFormatter.formatForCSV tx.timestamp
      type := mapTransactionType tx.type
      buyAmount := ""
      buyCurrency := ""
      sellAmount := ""
      sellCurrency := ""
      feeAmount := tx.fee.value
      feeCurrency := tx.fee.symbol
      exchange := "Osmosis"
      transactionId := tx.hash }
  match tx.type with
  | .swap => mapSwap tx row
  | .transfer => mapTransfer tx row
  | .stake => mapStake tx row
  | .unstake => mapUnstake tx row
  | .claim_rewards => mapClaimRewards tx row
  | .provide_liquidity => mapProvideLiquidity tx row
  | .remove_liquidity => mapRemoveLiquidity tx row
  | _ => row

/-- The fixed column headers, in order. -/
def csvHeaders : List String :=
  ["Date", "Type", "Buy Amount", "Buy Currency", "Sell Amount",
   "Sell Currency", "Fee Amount", "Fee Currency", "Exchange",
   "Transaction ID"]

/-- The values of a row in header order (the source indexes the row
record by header name; `row[header] || ''` is the identity on these
always-defined string fields). -/
def rowFields (row : AwakenTaxRow) : List String :=
  [row.date, row.type, row.buyAmount, row.buyCurrency, row.sellAmount,
   row.sellCurrency, row.feeAmount, row.feeCurrency, row.exchange,
   row.transactionId]

/-- Source `value.replace(/"/g, '""')`: double every double-quote character. -/
def doubleQuotes (l : List Char) : List Char :=
  l.flatMap (fun c => if c = '"' then [c, c] else [c])

/-- Source `escapeCSVField(field)`: a field containing a comma, double quote or
newline is wrapped in double quotes with internal quotes doubled; other
fields pass through unchanged. -/
def escapeCSVField (field : String) : String :=
  if field.data.contains ',' || field.data.contains '"'
      || field.data.contains '\n' then
    "\"" ++ String.mk (doubleQuotes field.data) ++ "\""
  else field

/-- Source `generateCSV(rows)`: escape and comma-join the headers and each row,
then newline-join header row and data rows
(`[headerRow, ...dataRows].join('\n')`). -/
def generateCSV (rows : List AwakenTaxRow) : String :=
  let headerRow := String.intercalate "," (csvHeaders.map escapeCSVField)
  let dataRows := rows.map
    (fun row => String.intercalate "," ((rowFields row).map escapeCSVField))
  String.intercalate "\n" (headerRow :: dataRows)

/-- Source `exportToAwakenTax(transactions)`: map every transaction to a row and
generate the document. -/
def exportToAwakenTax (transactions : List Transaction) : String :=
  generateCSV (transactions.map mapToAwakenTax)

end CSVExporter

end Osmo

namespace Osmo

/-! ## C7: swap export row -/

/-- C7: a swap transaction with amounts
`[{value:"10",symbol:"OSMO"}, {value:"5",symbol:"ATOM"}]` and fee
`{value:"0.005",symbol:"OSMO"}` maps to a row with Type "Trade", the
first amount on the Sell side, the second on the Buy side, the fee
fields from the fee, Exchange "Osmosis" and the transaction hash as
Transaction ID; and any swap with exactly one amount populates only the
Sell side, leaving Buy empty. -/
theorem c7_swap_row (tx : Transaction) (htype : tx.type = .swap) :
    ((tx.amounts
        = [{ value := "10", denom := "uosmo", symbol := "OSMO" },
           { value := "5", denom := "uatom", symbol := "ATOM" }] →
      tx.fee = { value := "0.005", denom := "uosmo", symbol := "OSMO" } →
      (CSVExporter.mapToAwakenTax tx).type = "Trade" ∧
      (CSVExporter.mapToAwakenTax tx).sellAmount = "10" ∧
      (CSVExporter.mapToAwakenTax tx).sellCurrency = "OSMO" ∧
      (CSVExporter.mapToAwakenTax tx).buyAmount = "5" ∧
      (CSVExporter.mapToAwakenTax tx).buyCurrency = "ATOM" ∧
      (CSVExporter.mapToAwakenTax tx).feeAmount = "0.005" ∧
      (CSVExporter.mapToAwakenTax tx).feeCurrency = "OSMO" ∧
      (CSVExporter.mapToAwakenTax tx).exchange = "Osmosis" ∧
      (CSVExporter.mapToAwakenTax tx).transactionId = tx.hash) ∧
    (∀ a : Amount, tx.amounts = [a] →
      (CSVExporter.mapToAwakenTax tx).sellAmount = a.value ∧
      (CSVExporter.mapToAwakenTax tx).sellCurrency = a.symbol ∧
      (CSVExporter.mapToAwakenTax tx).buyAmount = "" ∧
      (CSVExporter.mapToAwakenTax tx).buyCurrency = "")) := by
  constructor
  · intro hA hF
    unfold CSVExporter.mapToAwakenTax
    simp only [htype]
    simp [CSVExporter.mapSwap, CSVExporter.mapTransactionType, hA, hF]
  · intro a hA
    unfold CSVExporter.mapToAwakenTax
    simp only [htype]
    simp [CSVExporter.mapSwap, hA]

/-- Witness for C7 at a concrete two-amount swap and a concrete
one-amount swap. -/
theorem c7_swap_row_witness :
    ((CSVExporter.mapToAwakenTax
        { hash := "HASH1", timestamp := 0, type := .swap, status := .success,
          amounts := [{ value := "10", denom := "uosmo", symbol := "OSMO" },
                      { value := "5", denom := "uatom", symbol := "ATOM" }],
          fee := { value := "0.005", denom := "uosmo", symbol := "OSMO" },
          memo := none }).type = "Trade" ∧
      (CSVExporter.mapToAwakenTax
        { hash := "HASH1", timestamp := 0, type := .swap, status := .success,
          amounts := [{ value := "10", denom := "uosmo", symbol := "OSMO" },
                      { value := "5", denom := "uatom", symbol := "ATOM" }],
          fee := { value := "0.005", denom := "uosmo", symbol := "OSMO" },
          memo := none }).sellAmount = "10" ∧
      (CSVExporter.mapToAwakenTax
        { hash := "HASH1", timestamp := 0, type := .swap, status := .success,
          amounts := [{ value := "10", denom := "uosmo", symbol := "OSMO" },
                      { value := "5", denom := "uatom", symbol := "ATOM" }],
          fee := { value := "0.005", denom := "uosmo", symbol := "OSMO" },
          memo := none }).sellCurrency = "OSMO" ∧
      (CSVExporter.mapToAwakenTax
        { hash := "HASH1", timestamp := 0, type := .swap, status := .success,
          amounts := [{ value := "10", denom := "uosmo", symbol := "OSMO" },
                      { value := "5", denom := "uatom", symbol := "ATOM" }],
          fee := { value := "0.005", denom := "uosmo", symbol := "OSMO" },
          memo := none }).buyAmount = "5" ∧
      (CSVExporter.mapToAwakenTax
        { hash := "HASH1", timestamp := 0, type := .swap, status := .success,
          amounts := [{ value := "10", denom := "uosmo", symbol := "OSMO" },
                      { value := "5", denom := "uatom", symbol := "ATOM" }],
          fee := { value := "0.005", denom := "uosmo", symbol := "OSMO" },
          memo := none }).buyCurrency = "ATOM" ∧
      (CSVExporter.mapToAwakenTax
        { hash := "HASH1", timestamp := 0, type := .swap, status := .success,
          amounts := [{ value := "10", denom := "uosmo", symbol := "OSMO" },
                      { value := "5", denom := "uatom", symbol := "ATOM" }],
          fee := { value := "0.005", denom := "uosmo", symbol := "OSMO" },
          memo := none }).feeAmount = "0.005" ∧
      (CSVExporter.mapToAwakenTax
        { hash := "HASH1", timestamp := 0, type := .swap, status := .success,
          amounts := [{ value := "10", denom := "uosmo", symbol := "OSMO" },
                      { value := "5", denom := "uatom", symbol := "ATOM" }],
          fee := { value := "0.005", denom := "uosmo", symbol := "OSMO" },
          memo := none }).feeCurrency = "OSMO" ∧
      (CSVExporter.mapToAwakenTax
        { hash := "HASH1", timestamp := 0, type := .swap, status := .success,
          amounts := [{ value := "10", denom := "uosmo", symbol := "OSMO" },
                      { value := "5", denom := "uatom", symbol := "ATOM" }],
          fee := { value := "0.005", denom := "uosmo", symbol := "OSMO" },
          memo := none }).exchange = "Osmosis" ∧
      (CSVExporter.mapToAwakenTax
        { hash := "HASH1", timestamp := 0, type := .swap, status := .success,
          amounts := [{ value := "10", denom := "uosmo", symbol := "OSMO" },
                      { value := "5", denom := "uatom", symbol := "ATOM" }],
          fee := { value := "0.005", denom := "uosmo", symbol := "OSMO" },
          memo := none }).transactionId
        = ({ hash := "HASH1", timestamp := 0, type := .swap,
             status := .success,
             amounts := [{ value := "10", denom := "uosmo", symbol := "OSMO" },
                         { value := "5", denom := "uatom", symbol := "ATOM" }],
             fee := { value := "0.005", denom := "uosmo", symbol := "OSMO" },
             memo := none } : Transaction).hash) ∧
    ((CSVExporter.mapToAwakenTax
        { hash := "HASH2", timestamp := 0, type := .swap, status := .success,
          amounts := [{ value := "7", denom := "uosmo", symbol := "OSMO" }],
          fee := { value := "0", denom := "uosmo", symbol := "OSMO" },
          memo := none }).sellAmount
        = ({ value := "7", denom := "uosmo", symbol := "OSMO" } : Amount).value ∧
      (CSVExporter.mapToAwakenTax
        { hash := "HASH2", timestamp := 0, type := .swap, status := .success,
          amounts := [{ value := "7", denom := "uosmo", symbol := "OSMO" }],
          fee := { value := "0", denom := "uosmo", symbol := "OSMO" },
          memo := none }).sellCurrency
        = ({ value := "7", denom := "uosmo", symbol := "OSMO" } : Amount).symbol ∧
      (CSVExporter.mapToAwakenTax
        { hash := "HASH2", timestamp := 0, type := .swap, status := .success,
          amounts := [{ value := "7", denom := "uosmo", symbol := "OSMO" }],
          fee := { value := "0", denom := "uosmo", symbol := "OSMO" },
          memo := none }).buyAmount = "" ∧
      (CSVExporter.mapToAwakenTax
        { hash := "HASH2", timestamp := 0, type := .swap, status := .success,
          amounts := [{ value := "7", denom := "uosmo", symbol := "OSMO" }],
          fee := { value := "0", denom := "uosmo", symbol := "OSMO" },
          memo := none }).buyCurrency = "") :=
  ⟨(c7_swap_row
      { hash := "HASH1", timestamp := 0, type := .swap, status := .success,
        amounts := [{ value := "10", denom := "uosmo", symbol := "OSMO" },
                    { value := "5", denom := "uatom", symbol := "ATOM" }],
        fee := { value := "0.005", denom := "uosmo", symbol := "OSMO" },
        memo := none } rfl).1 rfl rfl,
   (c7_swap_row
      { hash := "HASH2", timestamp := 0, type := .swap, status := .success,
        amounts := [{ value := "7", denom := "uosmo", symbol := "OSMO" }],
        fee := { value := "0", denom := "uosmo", symbol := "OSMO" },
        memo := none } rfl).2
      { value := "7", denom := "uosmo", symbol := "OSMO" } rfl⟩

end Osmo

namespace Osmo

/-! ## C8: CSV field escaping and document assembly -/

/-- Join a list of strings with a separator — the specification's reading
of `Array.prototype.join`, written as direct recursion. -/
def specJoin (sep : String) : List String → String
  | [] => ""
  | [x] => x
  | x :: y :: xs => x ++ sep ++ specJoin sep (y :: xs)

theorem strAppend_assoc (a b c : String) : a ++ b ++ c = a ++ (b ++ c) := by
  cases a with
  | mk A =>
    cases b with
    | mk B =>
      cases c with
      | mk C =>
        show String.mk (A ++ B ++ C) = String.mk (A ++ (B ++ C))
        rw [List.append_assoc]

theorem intercalate_go (s : String) :
    ∀ (l : List String) (acc : String),
      String.intercalate.go acc s l = specJoin s (acc :: l) := by
  intro l
  induction l with
  | nil => intro acc; rfl
  | cons a as ih =>
    intro acc
    show String.intercalate.go (acc ++ s ++ a) s as = _
    rw [ih (acc ++ s ++ a)]
    cases as with
    | nil => rfl
    | cons b bs =>
      show acc ++ s ++ a ++ s ++ specJoin s (b :: bs)
          = acc ++ s ++ (a ++ s ++ specJoin s (b :: bs))
      rw [strAppend_assoc (acc ++ s ++ a), strAppend_assoc (acc ++ s),
        strAppend_assoc a]

theorem intercalate_eq_specJoin (s : String) (l : List String) :
    String.intercalate s l = specJoin s l := by
  cases l with
  | nil => rfl
  | cons a as => exact intercalate_go s as a

theorem contains_iff_mem (l : List Char) (c : Char) :
    l.contains c = true ↔ c ∈ l := by
  simp

/-- C8: a field containing a comma, a double quote or a newline is
wrapped in double quotes with each internal double quote doubled; a
field containing none of them passes through unchanged; the example
`Contains, comma` becomes `"Contains, comma"`; and the exported document
is the header row followed by one row per transaction, fields joined by
commas and rows joined by single newlines. -/
theorem c8_csv_encoding :
    (∀ s : String, (',' ∈ s.data ∨ '"' ∈ s.data ∨ '\n' ∈ s.data) →
      CSVExporter.escapeCSVField s
        = "\"" ++ String.mk (s.data.flatMap
            (fun c => if c = '"' then [c, c] else [c])) ++ "\"") ∧
    (∀ s : String, ',' ∉ s.data → '"' ∉ s.data → '\n' ∉ s.data →
      CSVExporter.escapeCSVField s = s) ∧
    CSVExporter.escapeCSVField "Contains, comma" = "\"Contains, comma\"" ∧
    (∀ transactions : List Transaction,
      CSVExporter.exportToAwakenTax transactions
        = specJoin "\n"
            (specJoin "," (CSVExporter.csvHeaders.map CSVExporter.escapeCSVField)
              :: transactions.map (fun tx =>
                specJoin ","
                  ((CSVExporter.rowFields (CSVExporter.mapToAwakenTax tx)).map
                    CSVExporter.escapeCSVField)))) := by
  refine ⟨?_, ?_, by decide, ?_⟩
  · intro s hs
    unfold CSVExporter.escapeCSVField
    rw [if_pos]
    · rfl
    · rcases hs with h | h | h <;>
        simp [contains_iff_mem, h]
  · intro s h1 h2 h3
    unfold CSVExporter.escapeCSVField
    rw [if_neg]
    simp [contains_iff_mem, h1, h2, h3]
  · intro transactions
    unfold CSVExporter.exportToAwakenTax CSVExporter.generateCSV
    simp only [intercalate_eq_specJoin, List.map_map]
    rfl

/-- Witness for C8's universally quantified clauses at concrete
inputs. -/
theorem c8_csv_encoding_witness :
    (CSVExporter.escapeCSVField "a\"b"
      = "\"" ++ String.mk ("a\"b".data.flatMap
          (fun c => if c = '"' then [c, c] else [c])) ++ "\"") ∧
    CSVExporter.escapeCSVField "plain" = "plain" ∧
    CSVExporter.exportToAwakenTax []
      = specJoin "\n"
          (specJoin "," (CSVExporter.csvHeaders.map CSVExporter.escapeCSVField)
            :: ([] : List Transaction).map (fun tx =>
              specJoin ","
                ((CSVExporter.rowFields (CSVExporter.mapToAwakenTax tx)).map
                  CSVExporter.escapeCSVField))) :=
  ⟨c8_csv_encoding.1 "a\"b" (Or.inr (Or.inl (by decide))),
   c8_csv_encoding.2.1 "plain" (by decide) (by decide) (by decide),
   c8_csv_encoding.2.2.2 []⟩

/-! ## C9: vote and unknown rows -/

/-- C9 counterexample: the exporter's fixed lookup table maps a `vote`
transaction to Type `"Other"`, not `"Vote"` as the claim states. -/
theorem c9_vote_counterexample :
    (CSVExporter.mapToAwakenTax
        { hash := "h", timestamp := 0, type := .vote, status := .success,
          amounts := [],
          fee := { value := "0", denom := "uosmo", symbol := "OSMO" },
          memo := none }).type = "Other" ∧
    ¬ (CSVExporter.mapToAwakenTax
        { hash := "h", timestamp := 0, type := .vote, status := .success,
          amounts := [],
          fee := { value := "0", denom := "uosmo", symbol := "OSMO" },
          memo := none }).type = "Vote" := by
  constructor
  · rfl
  · intro h
    exact absurd h (by decide)

/-- C9 (amended): both `vote` and `unknown` transactions export with
Type `"Other"` per the fixed lookup table, and all four Buy/Sell amount
and currency fields stay empty strings. -/
theorem c9_vote_unknown_rows (tx : Transaction)
    (h : tx.type = .vote ∨ tx.type = .unknown) :
    (CSVExporter.mapToAwakenTax tx).type = "Other" ∧
    (CSVExporter.mapToAwakenTax tx).buyAmount = "" ∧
    (CSVExporter.mapToAwakenTax tx).buyCurrency = "" ∧
    (CSVExporter.mapToAwakenTax tx).sellAmount = "" ∧
    (CSVExporter.mapToAwakenTax tx).sellCurrency = "" := by
  rcases h with h | h <;>
    (unfold CSVExporter.mapToAwakenTax
     simp only [h]
     simp [CSVExporter.mapTransactionType])

/-- Witness for C9's amended statement at a concrete `unknown`
transaction. -/
theorem c9_vote_unknown_rows_witness :
    (CSVExporter.mapToAwakenTax
        { hash := "h2", timestamp := 0, type := .unknown, status := .failed,
          amounts := [],
          fee := { value := "0", denom := "uosmo", symbol := "OSMO" },
          memo := none }).type = "Other" ∧
    (CSVExporter.mapToAwakenTax
        { hash := "h2", timestamp := 0, type := .unknown, status := .failed,
          amounts := [],
          fee := { value := "0", denom := "uosmo", symbol := "OSMO" },
          memo := none }).buyAmount = "" ∧
    (CSVExporter.mapToAwakenTax
        { hash := "h2", timestamp := 0, type := .unknown, status := .failed,
          amounts := [],
          fee := { value := "0", denom := "uosmo", symbol := "OSMO" },
          memo := none }).buyCurrency = "" ∧
    (CSVExporter.mapToAwakenTax
        { hash := "h2", timestamp := 0, type := .unknown, status := .failed,
          amounts := [],
          fee := { value := "0", denom := "uosmo", symbol := "OSMO" },
          memo := none }).sellAmount = "" ∧
    (CSVExporter.mapToAwakenTax
        { hash := "h2", timestamp := 0, type := .unknown, status := .failed,
          amounts := [],
          fee := { value := "0", denom := "uosmo", symbol := "OSMO" },
          memo := none }).sellCurrency = "" :=
  c9_vote_unknown_rows
    { hash := "h2", timestamp := 0, type := .unknown, status := .failed,
      amounts := [],
      fee := { value := "0", denom := "uosmo", symbol := "OSMO" },
      memo := none } (Or.inr rfl)

/-! ## C10: parseAmount / parseFee defaults -/

/-- C10: `parseAmount` and `parseFee` return normally (`some`) on every
input the claim enumerates: a `null` amount yields the fixed default,
and a `null`, field-less or empty fee yields the zero fee; but an amount
object with missing fields yields symbol `"NKNOWN"` (the `denomToSymbol`
fallback strips the leading `'u'` of the defaulted denomination
`"unknown"`), where the claim — and the repository unit test — expects
`"UNKNOWN"`; present fields are still used where available. -/
theorem c10_parse_defaults :
    TransactionParser.parseAmount none
      = some { value := "0", denom := "unknown", symbol := "UNKNOWN" } ∧
    TransactionParser.parseAmount (some {})
      = some { value := "0", denom := "unknown", symbol := "NKNOWN" } ∧
    TransactionParser.parseAmount (some { denom := some "uosmo" })
      = some { value := "0", denom := "uosmo", symbol := "OSMO" } ∧
    TransactionParser.parseFee none
      = some { value := "0", denom := "uosmo", symbol := "OSMO" } ∧
    TransactionParser.parseFee (some {})
      = some { value := "0", denom := "uosmo", symbol := "OSMO" } ∧
    TransactionParser.parseFee (some { amount := some [] })
      = some { value := "0", denom := "uosmo", symbol := "OSMO" } := by
  refine ⟨rfl, ?_, ?_, rfl, rfl, rfl⟩ <;> decide

end Osmo
